import Mathlib

/-!
Verification of the `llmsee` reverse proxy (Go) against its natural-language
specification.  The Go sources are shallowly embedded: pure functions become
Lean functions, the per-request handler becomes a function from an explicit
"world" (the results of the ambient I/O actions, in the order the handler
performs them) to an outcome trace, and machine strings are modeled as Lean
`String`s (Go strings are byte slices; for the valid-UTF-8 data handled here
the two agree, and all comparisons in the source are exact byte comparisons).

JSON numbers are modeled as integers: the only numeric field the program ever
interprets is the stream metadata field `created`, which the source casts to
`int64`; a literal with a fractional part or exponent is outside the model
(the embedded parser rejects it, so theorems with a parse hypothesis simply do
not range over such payloads).
-/

namespace LLMSee

/-! ## Go string primitives (exact byte/char semantics of the `strings` package) -/

/-- Character-level test for Go's `unicode.IsSpace` restricted to the ASCII
whitespace actually produced by event streams (space, tab, CR, LF, vertical
tab, form feed); this is what `strings.TrimSpace` strips on such data. -/
def isGoSpace (c : Char) : Bool :=
  c = ' ' || c = '\t' || c = '\n' || c = '\r' || c = '\x0b' || c = '\x0c'

/-- Leading-match test on char lists (`strings.HasPrefix` on UTF-8 data). -/
def chStarts : List Char → List Char → Bool
  | [], _ => true
  | _ :: _, [] => false
  | p :: ps, c :: cs => p = c && chStarts ps cs

/-- Test whether `pre` begins `s` (Go `strings.HasPrefix s pre`). -/
def gStarts (s pre : String) : Bool := chStarts pre.data s.data

/-- Go `strings.TrimPrefix s pre` under the assumption the caller checked the
match: drop `pre.length` characters. -/
def gDropMarker (s pre : String) : String := ⟨s.data.drop pre.data.length⟩

/-- Go `strings.TrimSpace`. -/
def gTrimSpace (s : String) : String :=
  ⟨((s.data.dropWhile isGoSpace).reverse.dropWhile isGoSpace).reverse⟩

/-- Split a char list at every occurrence of `sep` (the separators used by the
source, `"\n"` and `":"`, are single characters). -/
def chSplit (sep : Char) : List Char → List (List Char)
  | [] => [[]]
  | c :: cs =>
    let rest := chSplit sep cs
    if c = sep then [] :: rest
    else match rest with
      | [] => [[c]]
      | r :: rs => (c :: r) :: rs

/-- Go `strings.Split s sep` for a one-character separator. -/
def gSplit (s : String) (sep : Char) : List String :=
  (chSplit sep s.data).map (fun l => ⟨l⟩)

/-- Go `strings.SplitN s sep 2` for a one-character separator: split at the
first occurrence only. -/
def gSplitN2 (s : String) (sep : Char) : List String :=
  if s.data.contains sep then
    [⟨s.data.takeWhile (· ≠ sep)⟩, ⟨(s.data.dropWhile (· ≠ sep)).drop 1⟩]
  else [s]

/-- Go `strings.Contains s sub` for a one-character needle. -/
def gContainsChar (s : String) (c : Char) : Bool := s.data.contains c

/-! ## The generic JSON value (`map[string]interface{}` / `interface{}`)

Go's `encoding/json` unmarshals arbitrary payloads into `nil`, `bool`,
`float64`, `string`, `[]interface{}` and `map[string]interface{}`.  Objects
are modeled as association lists; Go map iteration order is irrelevant here
because every serialization of a map sorts its keys (as `json.Marshal` does)
and every read is a keyed lookup. -/

inductive Json where
  | null : Json
  | bool : Bool → Json
  | num : Int → Json
  | str : String → Json
  | arr : List Json → Json
  | obj : List (String × Json) → Json
  deriving Repr

mutual

def Json.beq : Json → Json → Bool
  | .null, .null => true
  | .bool a, .bool b => a = b
  | .num a, .num b => a = b
  | .str a, .str b => a = b
  | .arr a, .arr b => Json.beqList a b
  | .obj a, .obj b => Json.beqObj a b
  | _, _ => false

def Json.beqList : List Json → List Json → Bool
  | [], [] => true
  | a :: as, b :: bs => Json.beq a b && Json.beqList as bs
  | _, _ => false

def Json.beqObj : List (String × Json) → List (String × Json) → Bool
  | [], [] => true
  | (ka, va) :: as, (kb, vb) :: bs => ka = kb && Json.beq va vb && Json.beqObj as bs
  | _, _ => false

end

mutual

theorem Json.beq_iff : ∀ a b : Json, Json.beq a b = true ↔ a = b
  | .null, b => by cases b <;> simp [Json.beq]
  | .bool x, b => by cases b <;> simp [Json.beq]
  | .num x, b => by cases b <;> simp [Json.beq]
  | .str x, b => by cases b <;> simp [Json.beq]
  | .arr xs, b => by
      cases b <;> simp [Json.beq]
      exact Json.beqList_iff xs _
  | .obj xs, b => by
      cases b <;> simp [Json.beq]
      exact Json.beqObj_iff xs _

theorem Json.beqList_iff : ∀ a b : List Json, Json.beqList a b = true ↔ a = b
  | [], b => by cases b <;> simp [Json.beqList]
  | x :: xs, b => by
      cases b with
      | nil => simp [Json.beqList]
      | cons y ys =>
        simp [Json.beqList, Json.beq_iff x y, Json.beqList_iff xs ys]

theorem Json.beqObj_iff :
    ∀ a b : List (String × Json), Json.beqObj a b = true ↔ a = b
  | [], b => by cases b <;> simp [Json.beqObj]
  | (k, v) :: xs, b => by
      cases b with
      | nil => simp [Json.beqObj]
      | cons y ys =>
        obtain ⟨k2, v2⟩ := y
        simp [Json.beqObj, Json.beq_iff v v2, Json.beqObj_iff xs ys, and_assoc]

end

instance : DecidableEq Json := fun a b =>
  decidable_of_iff (Json.beq a b = true) (Json.beq_iff a b)

/-- Keyed lookup in a JSON object, i.e. `m["k"]` on the unmarshaled map. -/
def objGet (kvs : List (String × Json)) (k : String) : Option Json :=
  match kvs with
  | [] => none
  | (k', v) :: rest => if k' = k then some v else objGet rest k

/-- Map update `m[k] = v`: replace the binding if present, else append. -/
def objSet (kvs : List (String × Json)) (k : String) (v : Json) :
    List (String × Json) :=
  match kvs with
  | [] => [(k, v)]
  | (k', v') :: rest =>
    if k' = k then (k', v) :: rest else (k', v') :: objSet rest k v

/-- Map deletion `delete(m, k)`. -/
def objDel (kvs : List (String × Json)) (k : String) : List (String × Json) :=
  kvs.filter (fun kv => kv.1 ≠ k)

/-- Go type assertion `m["k"].(string)`: succeeds exactly when the key is
present with a string value. -/
def getStr (kvs : List (String × Json)) (k : String) : Option String :=
  match objGet kvs k with
  | some (.str s) => some s
  | _ => none

/-- Go type assertion `m["k"].(float64)`: any JSON number unmarshals to
`float64`, so this succeeds exactly when the key holds a number. -/
def getNum (kvs : List (String × Json)) (k : String) : Option Int :=
  match objGet kvs k with
  | some (.num n) => some n
  | _ => none

/-! ## JSON parsing (`json.Unmarshal` into `interface{}`)

A fuel-indexed recursive-descent parser; `fuel = length + 1` always suffices
because every step consumes input.  Numbers with a fractional part or exponent
are rejected (see the module comment). -/

/-- JSON structural whitespace accepted between tokens by `encoding/json`. -/
def isJsonWs (c : Char) : Bool := c = ' ' || c = '\t' || c = '\n' || c = '\r'

def skipWs (cs : List Char) : List Char := cs.dropWhile isJsonWs

/-- Value of a hex digit of a `\uXXXX` escape. -/
def hexVal (c : Char) : Option Nat :=
  if '0' ≤ c ∧ c ≤ '9' then some (c.toNat - '0'.toNat)
  else if 'a' ≤ c ∧ c ≤ 'f' then some (c.toNat - 'a'.toNat + 10)
  else if 'A' ≤ c ∧ c ≤ 'F' then some (c.toNat - 'A'.toNat + 10)
  else none

/-- Scan the characters of a JSON string literal, after the opening quote;
returns the decoded characters and the input following the closing quote. -/
def parseStrChars : List Char → Option (List Char × List Char)
  | [] => none
  | '"' :: rest => some ([], rest)
  | '\\' :: rest =>
    match rest with
    | 'n' :: r => (parseStrChars r).map (fun p => ('\n' :: p.1, p.2))
    | 't' :: r => (parseStrChars r).map (fun p => ('\t' :: p.1, p.2))
    | 'r' :: r => (parseStrChars r).map (fun p => ('\r' :: p.1, p.2))
    | 'b' :: r => (parseStrChars r).map (fun p => ('\x08' :: p.1, p.2))
    | 'f' :: r => (parseStrChars r).map (fun p => ('\x0c' :: p.1, p.2))
    | '"' :: r => (parseStrChars r).map (fun p => ('"' :: p.1, p.2))
    | '\\' :: r => (parseStrChars r).map (fun p => ('\\' :: p.1, p.2))
    | '/' :: r => (parseStrChars r).map (fun p => ('/' :: p.1, p.2))
    | 'u' :: h1 :: h2 :: h3 :: h4 :: r =>
      match hexVal h1, hexVal h2, hexVal h3, hexVal h4 with
      | some a, some b, some c, some d =>
        let n := ((a * 16 + b) * 16 + c) * 16 + d
        if h : n.isValidChar then
          (parseStrChars r).map (fun p => (Char.ofNatAux n h :: p.1, p.2))
        else none
      | _, _, _, _ => none
    | _ => none
  | c :: rest =>
    if c.toNat < 32 then none
    else (parseStrChars rest).map (fun p => (c :: p.1, p.2))

/-- Scan a run of decimal digits, most significant first. -/
def parseDigits : List Char → Nat → (Nat × List Char)
  | [], acc => (acc, [])
  | c :: cs, acc =>
    if '0' ≤ c ∧ c ≤ '9' then parseDigits cs (acc * 10 + (c.toNat - '0'.toNat))
    else (acc, c :: cs)

mutual

/-- Parse one JSON value; returns it with the unconsumed remainder. -/
def parseValue : Nat → List Char → Option (Json × List Char)
  | 0, _ => none
  | fuel + 1, cs =>
    match skipWs cs with
    | 'n' :: 'u' :: 'l' :: 'l' :: rest => some (.null, rest)
    | 't' :: 'r' :: 'u' :: 'e' :: rest => some (.bool true, rest)
    | 'f' :: 'a' :: 'l' :: 's' :: 'e' :: rest => some (.bool false, rest)
    | '"' :: rest =>
      (parseStrChars rest).map (fun p => (.str ⟨p.1⟩, p.2))
    | '[' :: rest =>
      (match skipWs rest with
       | ']' :: r => some (.arr [], r)
       | other => (parseElems fuel other).map (fun p => (.arr p.1, p.2)))
    | '{' :: rest =>
      (match skipWs rest with
       | '}' :: r => some (.obj [], r)
       | other => (parseMembers fuel other).map (fun p => (.obj p.1, p.2)))
    | '-' :: c :: rest =>
      if '0' ≤ c ∧ c ≤ '9' then
        let p := parseDigits rest (c.toNat - '0'.toNat)
        match p.2 with
        | '.' :: _ => none
        | 'e' :: _ => none
        | 'E' :: _ => none
        | _ => some (.num (-(p.1 : Int)), p.2)
      else none
    | c :: rest =>
      if '0' ≤ c ∧ c ≤ '9' then
        let p := parseDigits rest (c.toNat - '0'.toNat)
        match p.2 with
        | '.' :: _ => none
        | 'e' :: _ => none
        | 'E' :: _ => none
        | _ => some (.num (p.1 : Int), p.2)
      else none
    | [] => none

/-- Parse the elements of a non-empty array (after `[`). -/
def parseElems : Nat → List Char → Option (List Json × List Char)
  | 0, _ => none
  | fuel + 1, cs =>
    match parseValue fuel cs with
    | none => none
    | some (v, rest) =>
      match skipWs rest with
      | ',' :: r => (parseElems fuel r).map (fun p => (v :: p.1, p.2))
      | ']' :: r => some ([v], r)
      | _ => none

/-- Parse the members of a non-empty object (after `{`). -/
def parseMembers : Nat → List Char → Option (List (String × Json) × List Char)
  | 0, _ => none
  | fuel + 1, cs =>
    match skipWs cs with
    | '"' :: rest =>
      match parseStrChars rest with
      | none => none
      | some (kcs, afterKey) =>
        match skipWs afterKey with
        | ':' :: afterColon =>
          match parseValue fuel afterColon with
          | none => none
          | some (v, rest') =>
            match skipWs rest' with
            | ',' :: r =>
              (parseMembers fuel r).map (fun p => ((⟨kcs⟩, v) :: p.1, p.2))
            | '}' :: r => some ([(⟨kcs⟩, v)], r)
            | _ => none
        | _ => none
    | _ => none

end

/-- Go `json.Unmarshal(bytes, &v)` for `v : interface{}`: exactly one value,
surrounded only by whitespace. -/
def parseJson (s : String) : Option Json :=
  match parseValue (s.data.length + 1) s.data with
  | some (v, rest) => if skipWs rest = [] then some v else none
  | none => none

/-! ## JSON serialization (`json.Marshal` / `json.MarshalIndent`)

`json.Marshal` emits the keys of a Go map in sorted order at every nesting
level; struct values are emitted in declared field order.  `encoding/json`
HTML-escapes `<`, `>`, `&` by default. -/

/-- Lowercase hex digit. -/
def hexDigit (n : Nat) : Char :=
  if n < 10 then Char.ofNat ('0'.toNat + n) else Char.ofNat ('a'.toNat + n - 10)

/-- Escape one character the way `encoding/json` does inside string literals. -/
def escapeChar (c : Char) : List Char :=
  if c = '"' then ['\\', '"']
  else if c = '\\' then ['\\', '\\']
  else if c = '\n' then ['\\', 'n']
  else if c = '\r' then ['\\', 'r']
  else if c = '\t' then ['\\', 't']
  else if c = '<' then ['\\', 'u', '0', '0', '3', 'c']
  else if c = '>' then ['\\', 'u', '0', '0', '3', 'e']
  else if c = '&' then ['\\', 'u', '0', '0', '2', '6']
  else if c.toNat < 32 then
    ['\\', 'u', '0', '0', hexDigit (c.toNat / 16), hexDigit (c.toNat % 16)]
  else if c.toNat = 0x2028 ∨ c.toNat = 0x2029 then
    ['\\', 'u', '2', '0', '2', hexDigit (c.toNat % 16)]
  else [c]

/-- A JSON string literal for `s`. -/
def quoteStr (s : String) : String :=
  "\"" ++ (⟨s.data.flatMap escapeChar⟩ : String) ++ "\""

/-- Insert a keyed pair into a key-sorted association list. -/
def insertPair (p : String × Json) : List (String × Json) → List (String × Json)
  | [] => [p]
  | q :: qs => if p.1 ≤ q.1 then p :: q :: qs else q :: insertPair p qs

/-- Sort an association list ascending by key, as `json.Marshal` orders the
keys of a Go map. -/
def sortPairs (kvs : List (String × Json)) : List (String × Json) :=
  kvs.foldr insertPair []

mutual

/-- Recursively apply the map-key ordering of `json.Marshal`. -/
def deepSort : Json → Json
  | .arr xs => .arr (deepSortList xs)
  | .obj kvs => .obj (sortPairs (deepSortPairs kvs))
  | j => j

def deepSortList : List Json → List Json
  | [] => []
  | x :: xs => deepSort x :: deepSortList xs

def deepSortPairs : List (String × Json) → List (String × Json)
  | [] => []
  | (k, v) :: xs => (k, deepSort v) :: deepSortPairs xs

end

mutual

/-- Compact rendering, object fields in list order (the caller arranges the
order: sorted for Go maps, declared order for Go structs). -/
def renderC : Json → String
  | .null => "null"
  | .bool b => if b then "true" else "false"
  | .num n => toString n
  | .str s => quoteStr s
  | .arr xs => "[" ++ String.intercalate "," (renderCList xs) ++ "]"
  | .obj kvs => "\x7b" ++ String.intercalate "," (renderCFields kvs) ++ "\x7d"

def renderCList : List Json → List String
  | [] => []
  | x :: xs => renderC x :: renderCList xs

def renderCFields : List (String × Json) → List String
  | [] => []
  | (k, v) :: xs => (quoteStr k ++ ":" ++ renderC v) :: renderCFields xs

end

/-- Go `json.Marshal` on an `interface{}` value (maps at every level, hence
keys sorted at every level). -/
def marshal (j : Json) : String := renderC (deepSort j)

/-- The indentation string at nesting depth `d` for `MarshalIndent(v, "", "  ")`. -/
def indentAt (d : Nat) : String := ⟨List.replicate (2 * d) ' '⟩

mutual

/-- Indented rendering (`json.MarshalIndent(v, "", "  ")`), fields in list
order. -/
def renderI : Nat → Json → String
  | _, .null => "null"
  | _, .bool b => if b then "true" else "false"
  | _, .num n => toString n
  | _, .str s => quoteStr s
  | _, .arr [] => "[]"
  | d, .arr (x :: xs) =>
    "[\n" ++ String.intercalate ",\n" (renderIList (d + 1) (x :: xs)) ++
      "\n" ++ indentAt d ++ "]"
  | _, .obj [] => "\x7b\x7d"
  | d, .obj (kv :: kvs) =>
    "\x7b\n" ++ String.intercalate ",\n" (renderIFields (d + 1) (kv :: kvs)) ++
      "\n" ++ indentAt d ++ "\x7d"

def renderIList : Nat → List Json → List String
  | _, [] => []
  | d, x :: xs => (indentAt d ++ renderI d x) :: renderIList d xs

def renderIFields : Nat → List (String × Json) → List String
  | _, [] => []
  | d, (k, v) :: xs =>
    (indentAt d ++ quoteStr k ++ ": " ++ renderI d v) :: renderIFields d xs

end

/-! ## Streaming Response Reconstructor (`processChunks`, handler_proxy.go)

Direct translation of `processChunks`: split the accumulated bytes on
newlines, scan lines in order; a `"data: "`-marked line flags the stream as
OpenAI-shaped; `"[DONE]"` stops the scan; each parseable payload may freeze
metadata (only while the held id is still empty), appends its delta content,
and overwrites the captured usage. -/

/-- The `Metadata` struct local to `processChunks`. -/
structure Metadata where
  ID : String
  Model : String
  SystemFingerprint : String
  Created : Int
  deriving Repr, DecidableEq

/-- Zero value of `Metadata`. -/
def Metadata.init : Metadata := ⟨"", "", "", 0⟩

/-- The loop state of `processChunks`.  The source keeps the captured usage as
its `json.Marshal` bytes; the model keeps the captured value itself, which
determines those bytes (`marshal`) and their later re-indentation. -/
structure ChunkState where
  assembledContent : String
  usageStats : Option Json
  isOpenAISpec : Bool
  metadata : Metadata
  deriving Repr

def ChunkState.init : ChunkState := ⟨"", none, false, Metadata.init⟩

/-- The content fragment of one parsed frame:
`parsed["choices"].([]interface{})[0].(map)["delta"].(map)["content"].(string)`,
with every step guarded exactly as in the source. -/
def deltaContent (parsed : List (String × Json)) : Option String :=
  match objGet parsed "choices" with
  | some (.arr (c :: _)) =>
    match c with
    | .obj choice =>
      match objGet choice "delta" with
      | some (.obj delta) => getStr delta "content"
      | _ => none
    | _ => none
  | _ => none

/-- Process one parsed frame: metadata capture (only while the held id is
empty — each present, correctly-typed field overwrites), content append,
usage overwrite (key presence suffices, as `parsed["usage"]` with the comma-ok
form only tests membership). -/
def stepFrame (parsed : List (String × Json)) (st : ChunkState) : ChunkState :=
  let md :=
    if st.metadata.ID = "" then
      { ID := (getStr parsed "id").getD st.metadata.ID
        Model := (getStr parsed "model").getD st.metadata.Model
        SystemFingerprint :=
          (getStr parsed "system_fingerprint").getD st.metadata.SystemFingerprint
        Created := (getNum parsed "created").getD st.metadata.Created }
    else st.metadata
  let content :=
    match deltaContent parsed with
    | some s => st.assembledContent ++ s
    | none => st.assembledContent
  let usage :=
    match objGet parsed "usage" with
    | some v => some v
    | none => st.usageStats
  { assembledContent := content, usageStats := usage,
    isOpenAISpec := st.isOpenAISpec, metadata := md }

/-- The line scan of `processChunks`.  `json.Unmarshal` of a non-object into
`map[string]interface{}` errors (`continue` in the source) except for `null`,
which leaves the map `nil`, indistinguishable from an empty object. -/
def runLines : List String → ChunkState → ChunkState
  | [], st => st
  | line :: rest, st =>
    if gStarts line "data: " then
      let st1 := { st with isOpenAISpec := true }
      let data := gTrimSpace (gDropMarker line "data: ")
      if data = "[DONE]" then st1
      else
        match parseJson data with
        | some (.obj parsed) => runLines rest (stepFrame parsed st1)
        | some .null => runLines rest (stepFrame [] st1)
        | _ => runLines rest st1
    else runLines rest st

/-- The `Response` value `processChunks` marshals, as JSON in declared field
order (`json.MarshalIndent` keeps struct field order; the `usage` raw message
was produced by `json.Marshal`, hence is deep-key-sorted before indenting). -/
def responseJson (md : Metadata) (content : String) (usage : Option Json)
    (totalChunks : Int) : Json :=
  .obj [("metadata", .obj [("id", .str md.ID), ("model", .str md.Model),
          ("system_fingerprint", .str md.SystemFingerprint),
          ("created", .num md.Created)]),
        ("content", .str content),
        ("usage", match usage with | none => .null | some v => deepSort v),
        ("total_chunks", .num totalChunks)]

/-- The loop of `processChunks` over the whole byte accumulation. -/
def processChunksState (chunks : String) : ChunkState :=
  runLines (gSplit chunks '\n') ChunkState.init

/-- Translation of `processChunks(chunks, totalChunks)`. -/
def processChunks (chunks : String) (totalChunks : Int) : String :=
  let st := processChunksState chunks
  if st.isOpenAISpec then
    renderI 0 (responseJson st.metadata (gTrimSpace st.assembledContent)
      st.usageStats totalChunks)
  else chunks

/-! ## Frame decomposition of a stream

Compositional view of the same scan: the payloads of the marker-prefixed
lines up to the `[DONE]` sentinel, and the frames among them that unmarshal
into a map. -/

/-- One parsed frame (the unmarshaled `map[string]interface{}`). -/
abbrev Frame := List (String × Json)

/-- The `"data: "` payloads of a line list, in order, stopping at the first
`[DONE]` payload (exclusive), skipping unmarked lines. -/
def framePayloadsL : List String → List String
  | [] => []
  | line :: rest =>
    if gStarts line "data: " then
      let data := gTrimSpace (gDropMarker line "data: ")
      if data = "[DONE]" then [] else data :: framePayloadsL rest
    else framePayloadsL rest

/-- A payload's frame, when it unmarshals into a map (`null` gives the nil
map, indistinguishable from an empty one). -/
def parseFrame (d : String) : Option Frame :=
  match parseJson d with
  | some (.obj p) => some p
  | some .null => some []
  | _ => none

/-- The frames of a line list. -/
def framesOfLines (lines : List String) : List Frame :=
  (framePayloadsL lines).filterMap parseFrame

/-- The frames of a raw stream. -/
def streamFrames (chunks : String) : List Frame :=
  framesOfLines (gSplit chunks '\n')

/-- A frame's incremental content fragment (empty when absent). -/
def fragOf (f : Frame) : String := (deltaContent f).getD ""

/-- Modelled from the spec: "every frame's incremental content fragment is
appended, in order, with no separator, to a running content buffer" — the
ordered, separator-free concatenation of the fragments. -/
def specConcatContent (fs : List Frame) : String :=
  String.join (fs.map fragOf)

/-- One frame's metadata overwrite: each present, string-typed (respectively
numeric) field replaces the held one. -/
def applyMeta (parsed : Frame) (m : Metadata) : Metadata :=
  { ID := (getStr parsed "id").getD m.ID
    Model := (getStr parsed "model").getD m.Model
    SystemFingerprint :=
      (getStr parsed "system_fingerprint").getD m.SystemFingerprint
    Created := (getNum parsed "created").getD m.Created }

/-- The metadata part of the scan, frame by frame. -/
def metaFoldCode : List Frame → Metadata → Metadata
  | [], m => m
  | f :: fs, m => metaFoldCode fs (if m.ID = "" then applyMeta f m else m)

/-- Whether a frame carries a nonempty string id. -/
def hasId (f : Frame) : Bool :=
  match getStr f "id" with
  | some s => s ≠ ""
  | none => false

/-- The frames up to and including the first one carrying a nonempty id. -/
def takeThroughId : List Frame → List Frame
  | [] => []
  | f :: fs => if hasId f then [f] else f :: takeThroughId fs

/-- Last exposed value of one metadata field over a frame list. -/
def lastField {α : Type} (get : Frame → Option α) (dflt : α)
    (fs : List Frame) : α :=
  fs.foldl (fun a f => (get f).getD a) dflt

/-- The metadata the reconstruction actually keeps: per field, the last value
exposed among the frames up to and including the first frame carrying a
nonempty id. -/
def specMetadata (fs : List Frame) : Metadata :=
  let pre := takeThroughId fs
  { ID := lastField (getStr · "id") "" pre
    Model := lastField (getStr · "model") "" pre
    SystemFingerprint := lastField (getStr · "system_fingerprint") "" pre
    Created := lastField (getNum · "created") 0 pre }

/-- Modelled from the spec: "metadata equals the first frame's, never a later
one's" / "the first frame exposing identifying metadata freezes that metadata"
— per field, the value of the first frame exposing that field. -/
def specFirstMetadata (fs : List Frame) : Metadata :=
  { ID := ((fs.find? (fun f => (getStr f "id").isSome)).bind
      (getStr · "id")).getD ""
    Model := ((fs.find? (fun f => (getStr f "model").isSome)).bind
      (getStr · "model")).getD ""
    SystemFingerprint :=
      ((fs.find? (fun f => (getStr f "system_fingerprint").isSome)).bind
        (getStr · "system_fingerprint")).getD ""
    Created := ((fs.find? (fun f => (getNum f "created").isSome)).bind
      (getNum · "created")).getD 0 }

/-! ## Configuration and HTTP data (`config.go`, `net/http`)

`ProviderConfig` as the handler uses it.  The handler also reads an
`IsGemini` field (the spec's "dialect-quirk flag"); its declaration is not in
the provided `config.go` listing, so the field is carried here as the handler
requires it. -/

/-- One backend's configuration. -/
structure ProviderConfig where
  BaseURL : String
  ApiKey : String
  HeaderMapping : List (String × String)
  IsGemini : Bool
  deriving Repr, DecidableEq

/-- The provider table (`config.Providers`, a Go map: keys unique, reads are
keyed lookups). -/
abbrev Providers := List (String × ProviderConfig)

def lookupProvider (ps : Providers) (k : String) : Option ProviderConfig :=
  match ps with
  | [] => none
  | (k', v) :: rest => if k' = k then some v else lookupProvider rest k

/-- Model of `http.Header`: canonical-cased keys to value lists. -/
abbrev Headers := List (String × List String)

/-- Translation of `Header.Get`: first value of the key, or the empty string. -/
def hGet (hs : Headers) (k : String) : String :=
  match hs with
  | [] => ""
  | (k', vs) :: rest =>
    if k' = k then (match vs with | [] => "" | v :: _ => v) else hGet rest k

/-- Translation of `Header.Del`. -/
def hDel (hs : Headers) (k : String) : Headers :=
  hs.filter (fun kv => kv.1 ≠ k)

/-- Translation of `Header.Set`: replace the key's values with the one value. -/
def hSet (hs : Headers) (k v : String) : Headers :=
  match hs with
  | [] => [(k, [v])]
  | (k', vs) :: rest =>
    if k' = k then (k', [v]) :: rest else (k', vs) :: hSet rest k v

/-- Rendering of `json.Marshal(r.Header)`: a header map as a JSON object of string arrays
(keys sorted by `marshal`). -/
def headersJson (hs : Headers) : Json :=
  .obj (hs.map (fun kv => (kv.1, .arr (kv.2.map .str))))

/-- Translation of `proxyHeaders` (handler_proxy.go): strip hop-unsafe headers, override the
bearer credential when the backend has a static key, then apply the rename
table (modeled in list order; the Go map iteration order is arbitrary, and the
claims below do not depend on it). -/
def proxyHeaders (original : Headers) (provider : ProviderConfig) : Headers :=
  let headers := original.filter
    (fun kv => kv.1 ≠ "Host" ∧ kv.1 ≠ "Cookie" ∧ kv.1 ≠ "Origin")
  let headers :=
    if provider.ApiKey ≠ "" then
      hSet (hDel headers "Authorization") "Authorization"
        ("Bearer " ++ provider.ApiKey)
    else headers
  provider.HeaderMapping.foldl
    (fun hs om =>
      if hGet hs om.1 ≠ "" then hSet (hDel hs om.1) om.2 (hGet hs om.1)
      else hs)
    headers

/-! ## Content Decoder (`decompressBody`) -/

/-- Go `strings.ToLower` on the ASCII labels compared here. -/
def gToLower (s : String) : String :=
  ⟨s.data.map (fun c =>
    if 'A' ≤ c ∧ c ≤ 'Z' then Char.ofNat (c.toNat + 32) else c)⟩

/-- The five compression schemes `decompressBody` dispatches on. -/
inductive Scheme where
  | gzip | deflate | br | zstd | snappy
  deriving Repr, DecidableEq

/-- The scheme selected for an encoding label, if any. -/
def encodingScheme (encoding : String) : Option Scheme :=
  let e := gToLower encoding
  if e = "gzip" then some .gzip
  else if e = "deflate" then some .deflate
  else if e = "br" then some .br
  else if e = "zstd" then some .zstd
  else if e = "snappy" then some .snappy
  else none

abbrev GoErr := String

/-- The compression libraries: constructing a scheme's reader over the bytes
and draining it, combined (`NewReader` and `io.ReadAll` errors both flow to
the same handling at every call site). -/
abbrev Lib := Scheme → String → Except GoErr String

/-- Translation of `decompressBody` composed with the read of the returned reader: dispatch
on the lowercased label; the `default` branch returns the body unchanged with
no error. -/
def decompressBody (lib : Lib) (encoding : String) (body : String) :
    Except GoErr String :=
  match encodingScheme encoding with
  | some s => lib s body
  | none => .ok body

/-- A library stand-in that never decompresses successfully. -/
def libFail : Lib := fun _ _ => .error "library failure"

/-- A library stand-in that returns the bytes unchanged. -/
def libId : Lib := fun _ b => .ok b

/-! ## Audit records (`database.go`) -/

/-- The `LogEntry` struct. -/
structure LogEntry where
  Id : Int
  Timestamp : String
  Provider : String
  Method : String
  Model : String
  TargetURL : String
  RequestHeaders : String
  RequestBody : String
  RequestBodySize : Int
  ResponseStatus : Int
  ResponseHeaders : String
  ResponseBody : String
  ResponseBodySize : Int
  UserAgent : String
  DurationMs : Int
  deriving Repr, DecidableEq

/-- One row of the `logs` table, column for column (the sizes are not stored;
list queries recompute them with `length(...)`). -/
structure LogRow where
  id : Int
  timestamp : String
  provider : String
  method : String
  model : String
  target_url : String
  request_headers : String
  request_body : String
  response_status : Int
  response_headers : String
  response_body : String
  useragent : String
  duration_ms : Int
  deriving Repr, DecidableEq

/-- Translation of `updateLogRequest` (database.go): `UPDATE logs SET response_status,
response_headers, response_body, duration_ms WHERE id = entry.Id`. -/
def updateLogRequest (db : List LogRow) (entry : LogEntry) : List LogRow :=
  db.map (fun row =>
    if row.id = entry.Id then
      { row with
        response_status := entry.ResponseStatus
        response_headers := entry.ResponseHeaders
        response_body := entry.ResponseBody
        duration_ms := entry.DurationMs }
    else row)

/-! ## Event Broadcast Hub (`sendSSEUpdate`)

A subscriber's bounded channel is its queued updates plus its capacity (100
in `handleSse`).  Under the hub's lock discipline a client visible to the
broadcast loop never has its channels closed (close and map removal happen
together under the writer lock, while the broadcast holds the read lock), so
the `select`'s `<-client.done` arm is modeled as the skip it would be. -/

structure ServerUpdate where
  EventType : String
  Entry : LogEntry
  deriving Repr, DecidableEq

structure SSEClient where
  id : String
  events : List ServerUpdate
  capacity : Nat
  doneClosed : Bool
  deriving Repr, DecidableEq

/-- One client's treatment in `sendSSEUpdate`'s loop: skip a closed client;
enqueue when the buffered channel has room; otherwise the `default` arm drops
the update (logged), leaving the client untouched. -/
def sendOne (u : ServerUpdate) (c : SSEClient) : SSEClient :=
  if c.doneClosed then c
  else if c.events.length < c.capacity then { c with events := c.events ++ [u] }
  else c

/-- Translation of `sendSSEUpdate`: the broadcast over every connected client. -/
def sendSSEUpdate (clients : List SSEClient) (u : ServerUpdate) :
    List SSEClient :=
  clients.map (sendOne u)

/-! ## Model Aggregation Cache (`getAllModels`)

The per-provider fetch (`s.getModels`) is network I/O, supplied by a world;
everything after the barrier join is embedded: namespacing, merge, sort,
single serialization, cache store.  The merge order is goroutine-completion
order (supplied by the provider list order here); the final sort makes the
claim insensitive to it.  `sort.Slice`'s comparator asserts each entry's
`id` to `string`; the embedding keys missing ids as `""`, and the claim's
hypothesis (every entry carries a string id) keeps the two aligned. -/

structure ModelsWorld where
  fetches : String → Except GoErr (List Frame)

/-- The per-goroutine namespacing: `m["id"] = provider + ":" + id` and
`m["name"] = provider + ":" + name`, each only when present as a string. -/
def namespaceModels (p : String) (ms : List Frame) : List Frame :=
  ms.map (fun m =>
    let m1 := match getStr m "id" with
      | some i => objSet m "id" (.str (p ++ ":" ++ i))
      | none => m
    match getStr m1 "name" with
    | some n => objSet m1 "name" (.str (p ++ ":" ++ n))
    | none => m1)

/-- The merged (pre-sort) model list: failed providers are skipped (logged). -/
def combinedModelData (w : ModelsWorld) (ps : Providers) : List Frame :=
  ps.foldl
    (fun acc pp =>
      match w.fetches pp.1 with
      | .ok ms => acc ++ namespaceModels pp.1 ms
      | .error _ => acc)
    []

/-- The sort key: the asserted `m["id"].(string)`. -/
def modelKey (m : Frame) : String := (getStr m "id").getD ""

/-- Ascending insertion by key. -/
def insertModel (m : Frame) : List Frame → List Frame
  | [] => [m]
  | x :: xs => if modelKey m ≤ modelKey x then m :: x :: xs else x :: insertModel m xs

/-- Model of `sort.Slice(combinedModelData, less id <)`: a deterministic representative
of the (unstable) sort — ties cannot arise between distinct namespaced ids. -/
def sortModels (ms : List Frame) : List Frame :=
  ms.foldr insertModel []

/-- The serialized snapshot: `json.Marshal` of
`(object: "list", data: combined)`. -/
def modelsJSONBytes (data : List Frame) : String :=
  marshal (.obj [("object", .str "list"), ("data", .arr (data.map .obj))])

/-- Translation of `getAllModels` as a sequential state machine over the cache
(`globalModelJSON`): a warm cache is served unconditionally; a cold call
builds, sorts, serializes once, stores, and serves the same bytes.  Returns
(bytes written, new cache). -/
def getAllModels (w : ModelsWorld) (ps : Providers) (cache : Option String) :
    String × Option String :=
  match cache with
  | some b => (b, some b)
  | none =>
    let data := sortModels (combinedModelData w ps)
    let b := modelsJSONBytes data
    (b, some b)

/-! ## Proxy Engine (`handleProxy`, handler_proxy.go)

The handler is a function of the request, the provider table, and a world
holding the results of its I/O actions in program order.  Its observable
behavior is an event trace (audit insert, upstream dispatch, audit update)
plus how the call ends.  Failed inserts/updates are logged and do not alter
control flow, so the trace records the attempts. -/

/-- Constant `httpMaxRequestBodySize = 10 << 20`. -/
def httpMaxRequestBodySize : Nat := 10485760

/-- Model of `io.ReadAll` over `http.MaxBytesReader(w, body, limit)`: up to `limit`
bytes, then the dedicated error. -/
def maxBytesRead (limit : Nat) (body : String) : String × Option GoErr :=
  if body.data.length > limit then
    (⟨body.data.take limit⟩, some "http: request body too large")
  else (body, none)

/-- Model of `json.Unmarshal(bodyBytes, &bodyJSON)` for
`bodyJSON : map[string]interface{}`: an object fills the map, `null` leaves it
nil (no error), everything else errors. -/
def unmarshalMap (s : String) : Except GoErr (Option Frame) :=
  match parseJson s with
  | some (.obj kvs) => .ok (some kvs)
  | some .null => .ok none
  | _ => .error "unmarshal error"

/-- Translation of `parseProvider`: trim slashes, split on the first `/`. -/
def gTrimChar (s : String) (c : Char) : String :=
  ⟨((s.data.dropWhile (· = c)).reverse.dropWhile (· = c)).reverse⟩

def parseProvider (path : String) : String × String :=
  match gSplitN2 (gTrimChar path '/') '/' with
  | [] => ("", "")
  | [a] => (a, "")
  | a :: b :: _ => (a, b)

/-- The `/v1` model extraction (the `if model, ok := ...; ok` block): splits
on the first `:`; `parts[1]` panics when the model has no `:`.  Returns the
resolved (provider, model) rewrite when one happened. -/
inductive RewriteRes where
  | crashed : String → RewriteRes
  | done : Option (String × String) → Option Frame → RewriteRes
  deriving Repr, DecidableEq

def v1ModelRewrite (bodyJSON : Option Frame) : RewriteRes :=
  match bodyJSON with
  | none => .done none none
  | some kvs =>
    match getStr kvs "model" with
    | none => .done none (some kvs)
    | some model =>
      match gSplitN2 model ':' with
      | p0 :: p1 :: _ => .done (some (p0, p1)) (some (objSet kvs "model" (.str p1)))
      | _ => .crashed "runtime error: index out of range [1] with length 1"

/-- The upstream response (`s.client.Do` success): status, headers, the
successive reads of the body, and the error ending the reads (`none` = EOF). -/
structure UpstreamResp where
  StatusCode : Int
  Header : Headers
  chunks : List String
  readErr : Option GoErr
  deriving Repr, DecidableEq

/-- The ambient I/O of one `handleProxy` run, in program order. -/
structure World where
  startTime : String
  durationMs : Int
  insertResult : Except GoErr Int
  mkReqErr : Option GoErr
  doResult : Except GoErr UpstreamResp
  writeFailAt : Option Nat
  deriving Repr

/-- A world whose upstream call succeeds with `resp` and whose local actions
all succeed. -/
def happyWorld (resp : UpstreamResp) : World :=
  { startTime := "2025-01-01T00:00:00Z", durationMs := 42,
    insertResult := .ok 7, mkReqErr := none, doResult := .ok resp,
    writeFailAt := none }

/-- One observable action of the handler. -/
inductive Ev where
  | insert : LogEntry → Ev
  | dispatch : String → String → String → Ev
  | update : LogEntry → Ev
  deriving Repr, DecidableEq

def Ev.isInsert : Ev → Bool
  | .insert _ => true
  | _ => false

def Ev.isDispatch : Ev → Bool
  | .dispatch _ _ _ => true
  | _ => false

def Ev.isUpdate : Ev → Bool
  | .update _ => true
  | _ => false

/-- How the handler run ends. -/
inductive HRes where
  | ok
  | httpError : Int → String → HRes
  | noContent
  | indexPage
  | modelsRoute
  | crash : String → HRes
  deriving Repr, DecidableEq

structure Outcome where
  events : List Ev
  result : HRes
  deriving Repr, DecidableEq

/-- The streaming read loop: every successfully read chunk is written to the
client and accumulated; a failed client write stops the loop after counting
that chunk but before accumulating it; a read error (logged) stops it too.
Returns (totalChunks, accumulated bytes).  Reads returning `n = 0` are
invisible to the loop body. -/
def consumeStream (chunks : List String) (wfail : Option Nat) : Int × String :=
  let cs := chunks.filter (fun c => c ≠ "")
  match wfail with
  | some i =>
    if i < cs.length then ((i : Int) + 1, String.join (cs.take i))
    else ((cs.length : Int), String.join cs)
  | none => ((cs.length : Int), String.join cs)

/-- The audit copy of an accumulated stream (handler lines after the read
loop): decompress when an encoding is present, keeping the raw bytes if the
decoder fails at either stage (logged only). -/
def streamAuditData (lib : Lib) (encoding : String) (data : String) : String :=
  if encoding ≠ "" then
    match decompressBody lib encoding data with
    | .ok decoded => decoded
    | .error _ => data
  else data

/-- The tail of the handler: fill in the response columns and attempt the one
terminal update. -/
def finishUpdate (evs : List Ev) (entry : LogEntry) (resp : UpstreamResp)
    (responseBody : String) (w : World) : Outcome :=
  let entry2 :=
    { entry with
      ResponseStatus := resp.StatusCode
      ResponseHeaders := marshal (headersJson resp.Header)
      ResponseBody := responseBody
      ResponseBodySize := (responseBody.data.length : Int)
      DurationMs := w.durationMs }
  { events := evs ++ [.update entry2], result := .ok }

/-- Translation of `handleProxy`. -/
def handleProxy (lib : Lib) (w : World) (ps : Providers) (method path rawQuery : String)
    (header : Headers) (body : String) : Outcome :=
  if method = "OPTIONS" then { events := [], result := .noContent }
  else if path = "/" then { events := [], result := .indexPage }
  else
    let bodyRead := maxBytesRead httpMaxRequestBodySize body
    let provider0 := (parseProvider path).1
    let remainingPath := (parseProvider path).2
    let v1Request := provider0 = "v1"
    if v1Request ∧ method = "GET" ∧ remainingPath = "models" then
      { events := [], result := .modelsRoute }
    else
      match bodyRead.2 with
      | some e =>
        if e = "http: request body too large" then
          { events := [],
            result := .httpError 413 "\x7b\"error\":\"Request body too large\"\x7d" }
        else
          { events := [],
            result := .httpError 500 "\x7b\"error\":\"Failed to read request body\"\x7d" }
      | none =>
        match unmarshalMap bodyRead.1 with
        | .error _ =>
          { events := [],
            result := .httpError 500 "\x7b\"error\":\"Failed to read request body\"\x7d" }
        | .ok bodyJSON0 =>
          match (if v1Request then v1ModelRewrite bodyJSON0
                 else .done none bodyJSON0) with
          | .crashed msg => { events := [], result := .crash msg }
          | .done upd bodyJSON1 =>
            let provider := match upd with
              | some pm => pm.1
              | none => provider0
            match lookupProvider ps provider with
            | none =>
              { events := [],
                result := .httpError 400 "\x7b\"error\":\"Invalid provider\"\x7d" }
            | some pc =>
              let bodyJSON2 :=
                if pc.IsGemini then bodyJSON1.map (objDel · "frequency_penalty")
                else bodyJSON1
              let bodyBytes := match bodyJSON2 with
                | none => "null"
                | some kvs => marshal (.obj kvs)
              let targetURL := pc.BaseURL ++ "/" ++ remainingPath ++
                (if rawQuery ≠ "" then "?" ++ rawQuery else "")
              match (match bodyJSON2 with
                     | some kvs => getStr kvs "model"
                     | none => none) with
              | none =>
                { events := [],
                  result := .crash "interface conversion: interface \x7b\x7d is not string" }
              | some entryModel =>
                let entry : LogEntry :=
                  { Id := 0, Timestamp := w.startTime, Provider := provider,
                    Method := method, Model := entryModel,
                    TargetURL := targetURL,
                    RequestHeaders := marshal (headersJson header),
                    RequestBody := bodyBytes,
                    RequestBodySize := (bodyBytes.data.length : Int),
                    ResponseStatus := 0, ResponseHeaders := "",
                    ResponseBody := "", ResponseBodySize := 0,
                    UserAgent := hGet header "User-Agent", DurationMs := 0 }
                let id := match w.insertResult with
                  | .ok i => i
                  | .error _ => 0
                let entry1 := { entry with Id := id }
                match w.mkReqErr with
                | some _ =>
                  { events := [.insert entry],
                    result := .httpError 500
                      "\x7b\"error\":\"Failed to create proxy request\"\x7d" }
                | none =>
                  let evs := [.insert entry,
                    .dispatch provider targetURL bodyBytes]
                  match w.doResult with
                  | .error e =>
                    { events := evs,
                      result := .httpError 500
                        ("\x7b\"error\":\"Proxy Error\",\"message\":\"" ++ e ++ "\"\x7d") }
                  | .ok resp =>
                    let encoding := hGet resp.Header "Content-Encoding"
                    if hGet resp.Header "Content-Type" = "text/event-stream" then
                      let cons := consumeStream resp.chunks w.writeFailAt
                      let responseBody :=
                        processChunks (streamAuditData lib encoding cons.2) cons.1
                      finishUpdate evs entry1 resp responseBody w
                    else
                      match resp.readErr with
                      | some _ =>
                        { events := evs,
                          result := .httpError 500
                            "\x7b\"error\":\"Failed to read response body\"\x7d" }
                      | none =>
                        let respBuffer := String.join resp.chunks
                        if encoding = "" then
                          finishUpdate evs entry1 resp respBuffer w
                        else
                          match decompressBody lib encoding respBuffer with
                          | .error _ =>
                            { events := evs,
                              result := .httpError 500
                                "\x7b\"error\":\"Failed to decompress response\"\x7d" }
                          | .ok decoded =>
                            finishUpdate evs entry1 resp decoded w

/-! ## Concrete sample data used by the witnesses and counterexamples -/

/-- A sample backend configuration. -/
def pcSample : ProviderConfig := ⟨"http://localhost:11434/v1", "", [], false⟩

/-- A one-backend provider table. -/
def cfgSample : Providers := [("ollama", pcSample)]

/-- A plain (non-streaming) upstream success. -/
def respPlain : UpstreamResp :=
  ⟨200, [("Content-Type", ["application/json"])], ["OK"], none⟩

/-- A streaming upstream success whose frames never carry the marker. -/
def respStreamRaw : UpstreamResp :=
  ⟨200, [("Content-Type", ["text/event-stream"])], ["raw1 ", "raw2"], none⟩

/-- A well-formed unified-endpoint body. -/
def bodyOllama : String := "\x7b\"model\":\"ollama:llama3\"\x7d"

/-- A unified-endpoint body whose model has no `:` delimiter. -/
def bodyNoColon : String := "\x7b\"model\":\"llama3\"\x7d"

/-- A world whose upstream dispatch fails. -/
def upstreamFailWorld : World :=
  { happyWorld respPlain with doResult := .error "connection refused" }

/-- A body one byte over the 10 MiB ceiling. -/
def bigBody : String := ⟨List.replicate (httpMaxRequestBodySize + 1) 'a'⟩

/-- A sample audit entry. -/
def entrySample : LogEntry :=
  ⟨1, "t", "ollama", "POST", "llama3", "u", "", "", 0, 0, "", "", 0, "", 0⟩

/-- A sample broadcast update. -/
def updSample : ServerUpdate := ⟨"insert", entrySample⟩

/-- A subscriber whose one-slot queue is saturated. -/
def clientFull : SSEClient := ⟨"c1", [updSample], 1, false⟩

/-- A subscriber with a free queue. -/
def clientFree : SSEClient := ⟨"c2", [], 100, false⟩

/-- A sample database row. -/
def rowSample (i : Int) : LogRow :=
  ⟨i, "t", "ollama", "POST", "llama3", "u", "rh", "rb", 0, "", "", "ua", 0⟩

/-- A two-row database. -/
def dbSample : List LogRow := [rowSample 1, rowSample 2]

/-- A terminal update aimed at row 2. -/
def updEntrySample : LogEntry :=
  { entrySample with
    Id := 2
    ResponseStatus := 200
    ResponseHeaders := "h"
    ResponseBody := "body"
    DurationMs := 9 }

/-- A model-list world for two backends. -/
def modelsWorldSample : ModelsWorld :=
  ⟨fun p =>
    if p = "ollama" then .ok [[("id", Json.str "llama3")], [("id", Json.str "abc")]]
    else .ok [[("id", Json.str "zeta")]]⟩

/-- A two-backend provider table. -/
def providersSample2 : Providers :=
  [("ollama", ⟨"u1", "", [], false⟩), ("other", ⟨"u2", "", [], false⟩)]

/-- A stream whose first frame exposes `model` (value `"a"`) and a leading-
space fragment, while only the second frame carries an `id` (and `model`
`"b"`). -/
def streamPartialMeta : String :=
  "data: \x7b\"model\":\"a\",\"choices\":[\x7b\"delta\":\x7b\"content\":\" x\"\x7d\x7d]\x7d\n" ++
  "data: \x7b\"id\":\"i\",\"model\":\"b\"\x7d\ndata: [DONE]\n"

/-- A well-formed stream: both frames carry the id, fragments `"Hello"` and
`" world"`. -/
def streamWellFormed : String :=
  "data: \x7b\"id\":\"i\",\"model\":\"m\",\"system_fingerprint\":\"fp\"," ++
  "\"created\":5,\"choices\":[\x7b\"delta\":\x7b\"content\":\"Hello\"\x7d\x7d]\x7d\n" ++
  "data: \x7b\"id\":\"i\",\"choices\":[\x7b\"delta\":\x7b\"content\":\" world\"\x7d\x7d]\x7d\n" ++
  "data: [DONE]\n"

/-- The body forwarded for a unified-endpoint call: the client body with its
`model` field rewritten to the bare model, and, for quirky backends, the
unsupported sampling parameter removed. -/
def forwardedBody (pc : ProviderConfig) (kvs : Frame) (m : String) : Frame :=
  if pc.IsGemini then objDel (objSet kvs "model" (.str m)) "frequency_penalty"
  else objSet kvs "model" (.str m)

/-- The body forwarded for a direct-provider call: the client body, with the
unsupported sampling parameter removed for quirky backends. -/
def directBody (pc : ProviderConfig) (kvs : Frame) : Frame :=
  if pc.IsGemini then objDel kvs "frequency_penalty" else kvs

/-! ### Scan decomposition lemmas -/

theorem stepFrame_isOpenAI (p : Frame) (st : ChunkState) :
    (stepFrame p st).isOpenAISpec = st.isOpenAISpec := rfl

theorem stepFrame_content (p : Frame) (st : ChunkState) :
    (stepFrame p st).assembledContent = st.assembledContent ++ fragOf p := by
  unfold stepFrame fragOf
  cases deltaContent p <;> simp

theorem stepFrame_metadata (p : Frame) (st : ChunkState) :
    (stepFrame p st).metadata =
      (if st.metadata.ID = "" then applyMeta p st.metadata else st.metadata) := by
  unfold stepFrame applyMeta
  split <;> rfl

/-- Shift the start value of a string-append fold to the front. -/
theorem foldl_append_from (a : String) (l : List String) :
    l.foldl (fun r s => r ++ s) a = a ++ l.foldl (fun r s => r ++ s) "" := by
  induction l generalizing a with
  | nil => simp
  | cons x xs ih =>
    simp only [List.foldl_cons, String.empty_append]
    rw [ih (a ++ x), ih x, String.append_assoc]

/-- The stream is flagged OpenAI-shaped exactly when some line carries the
marker (the scan never stops before processing the first marked line). -/
theorem runLines_isOpenAI (lines : List String) (st : ChunkState) :
    (runLines lines st).isOpenAISpec =
      (st.isOpenAISpec || lines.any (fun l => gStarts l "data: ")) := by
  induction lines generalizing st with
  | nil => simp [runLines]
  | cons line rest ih =>
    simp only [runLines, List.any_cons]
    by_cases hm : gStarts line "data: "
    · rw [if_pos hm, hm]
      by_cases hd : gTrimSpace (gDropMarker line "data: ") = "[DONE]"
      · simp [hd]
      · rw [if_neg hd]
        cases hp : parseJson (gTrimSpace (gDropMarker line "data: ")) with
        | none => simp [hp, ih]
        | some v => cases v <;> simp [hp, ih, stepFrame_isOpenAI]
    · rw [if_neg hm]
      rw [ih]
      simp [hm]

/-- Content decomposition: the running buffer accumulates exactly the ordered
fragment concatenation of the stream's frames. -/
theorem runLines_content (lines : List String) (st : ChunkState) :
    (runLines lines st).assembledContent =
      st.assembledContent ++ specConcatContent (framesOfLines lines) := by
  induction lines generalizing st with
  | nil => simp [runLines, framesOfLines, framePayloadsL, specConcatContent,
      String.join]
  | cons line rest ih =>
    simp only [runLines, framesOfLines, framePayloadsL]
    by_cases hm : gStarts line "data: "
    · rw [if_pos hm, if_pos hm]
      by_cases hd : gTrimSpace (gDropMarker line "data: ") = "[DONE]"
      · simp [hd, specConcatContent, String.join]
      · rw [if_neg hd, if_neg hd]
        cases hp : parseJson (gTrimSpace (gDropMarker line "data: ")) with
        | none =>
          simp only [hp]
          rw [ih]
          simp [framesOfLines, parseFrame, hp]
        | some v =>
          cases v with
          | obj p =>
            simp only [hp, parseFrame, List.filterMap_cons]
            rw [ih]
            simp only [stepFrame_content, specConcatContent, String.join,
              List.map_cons, List.foldl_cons, String.empty_append,
              framesOfLines]
            rw [foldl_append_from (fragOf p)]
            simp [String.append_assoc]
          | null =>
            simp only [hp, parseFrame, List.filterMap_cons]
            rw [ih]
            simp only [stepFrame_content, specConcatContent, String.join,
              List.map_cons, List.foldl_cons, String.empty_append,
              framesOfLines]
            rw [foldl_append_from (fragOf ([] : Frame))]
            simp [String.append_assoc]
          | bool b =>
            simp only [hp, parseFrame, List.filterMap_cons]
            rw [ih]
            simp [framesOfLines]
          | num n =>
            simp only [hp, parseFrame, List.filterMap_cons]
            rw [ih]
            simp [framesOfLines]
          | str s =>
            simp only [hp, parseFrame, List.filterMap_cons]
            rw [ih]
            simp [framesOfLines]
          | arr l =>
            simp only [hp, parseFrame, List.filterMap_cons]
            rw [ih]
            simp [framesOfLines]
    · rw [if_neg hm, if_neg hm]
      rw [ih]
      simp [framesOfLines]

/-- Metadata decomposition: the scan's metadata is the frame-by-frame fold. -/
theorem runLines_metadata (lines : List String) (st : ChunkState) :
    (runLines lines st).metadata =
      metaFoldCode (framesOfLines lines) st.metadata := by
  induction lines generalizing st with
  | nil => simp [runLines, framesOfLines, framePayloadsL, metaFoldCode]
  | cons line rest ih =>
    simp only [runLines, framesOfLines, framePayloadsL]
    by_cases hm : gStarts line "data: "
    · rw [if_pos hm, if_pos hm]
      by_cases hd : gTrimSpace (gDropMarker line "data: ") = "[DONE]"
      · simp [hd, metaFoldCode]
      · rw [if_neg hd, if_neg hd]
        cases hp : parseJson (gTrimSpace (gDropMarker line "data: ")) with
        | none =>
          simp only [hp]
          rw [ih]
          simp [framesOfLines, parseFrame, hp]
        | some v =>
          cases v with
          | obj p =>
            simp only [hp, parseFrame, List.filterMap_cons]
            rw [ih]
            simp [framesOfLines, metaFoldCode, stepFrame_metadata]
          | null =>
            simp only [hp, parseFrame, List.filterMap_cons]
            rw [ih]
            simp [framesOfLines, metaFoldCode, stepFrame_metadata]
          | bool b =>
            simp only [hp, parseFrame, List.filterMap_cons]
            rw [ih]
            simp [framesOfLines]
          | num n =>
            simp only [hp, parseFrame, List.filterMap_cons]
            rw [ih]
            simp [framesOfLines]
          | str s =>
            simp only [hp, parseFrame, List.filterMap_cons]
            rw [ih]
            simp [framesOfLines]
          | arr l =>
            simp only [hp, parseFrame, List.filterMap_cons]
            rw [ih]
            simp [framesOfLines]
    · rw [if_neg hm, if_neg hm]
      rw [ih]
      simp [framesOfLines]

/-- Once the held id is nonempty the fold never changes the metadata. -/
theorem metaFoldCode_frozen (fs : List Frame) (m : Metadata) (h : m.ID ≠ "") :
    metaFoldCode fs m = m := by
  induction fs with
  | nil => rfl
  | cons f fs ih => simp [metaFoldCode, h, ih]

/-- Characterization of `hasId`. -/
theorem hasId_true_iff (f : Frame) :
    hasId f = true ↔ ∃ s, getStr f "id" = some s ∧ s ≠ "" := by
  unfold hasId
  cases hg : getStr f "id" <;> simp

/-- The id component of one overwrite step. -/
theorem applyMeta_ID (f : Frame) (m : Metadata) :
    (applyMeta f m).ID = (getStr f "id").getD m.ID := rfl

/-- Starting from an empty id, the fold is the plain overwrite fold over the
prefix up to the first id-carrying frame. -/
theorem metaFoldCode_eq_takeThrough (fs : List Frame) (m : Metadata)
    (h : m.ID = "") :
    metaFoldCode fs m = (takeThroughId fs).foldl (fun a f => applyMeta f a) m := by
  induction fs generalizing m with
  | nil => rfl
  | cons f fs ih =>
    simp only [metaFoldCode, takeThroughId]
    rw [if_pos h]
    by_cases hid : hasId f
    · rw [if_pos hid]
      obtain ⟨s, hg, hs⟩ := (hasId_true_iff f).1 hid
      have hfrozen : (applyMeta f m).ID ≠ "" := by
        rw [applyMeta_ID, hg]
        simpa using hs
      simp [metaFoldCode_frozen _ _ hfrozen]
    · rw [if_neg hid]
      have hempty : (applyMeta f m).ID = "" := by
        rw [applyMeta_ID, h]
        cases hg : getStr f "id" with
        | none => rfl
        | some s =>
          have hs : s = "" := by
            by_contra hne
            exact hid ((hasId_true_iff f).2 ⟨s, hg, hne⟩)
          simp [hs]
      simp only [List.foldl_cons]
      exact ih _ hempty

/-- The overwrite fold acts on each field independently. -/
theorem foldl_applyMeta_fields (fs : List Frame) (m : Metadata) :
    fs.foldl (fun a f => applyMeta f a) m =
      { ID := lastField (getStr · "id") m.ID fs
        Model := lastField (getStr · "model") m.Model fs
        SystemFingerprint :=
          lastField (getStr · "system_fingerprint") m.SystemFingerprint fs
        Created := lastField (getNum · "created") m.Created fs } := by
  induction fs generalizing m with
  | nil => simp [lastField]
  | cons f fs ih =>
    simp only [List.foldl_cons]
    rw [ih (applyMeta f m)]
    rfl

/-- The scan's metadata on the whole stream, in closed form. -/
theorem metaFoldCode_init (fs : List Frame) :
    metaFoldCode fs Metadata.init = specMetadata fs := by
  rw [metaFoldCode_eq_takeThrough fs Metadata.init rfl,
    foldl_applyMeta_fields]
  rfl

/-! ## Claim C1 -/

/-- C1, counterexample: on `streamPartialMeta` the reconstructed content is
`"x"`, not the fragment concatenation `" x"` (the source trims outer
whitespace), and the record's model is `"b"` from the second frame, not the
first frame exposing `model` (value `"a"`): the claim fails on both counts. -/
theorem claim_C1_counterexample :
    gTrimSpace (processChunksState streamPartialMeta).assembledContent ≠
      specConcatContent (streamFrames streamPartialMeta) ∧
    (processChunksState streamPartialMeta).metadata.Model ≠
      (specFirstMetadata (streamFrames streamPartialMeta)).Model := by
  constructor <;> decide

/-- C1, amended: for every event stream, the reconstructed audit content is
the ordered, separator-free concatenation of the frames' incremental
fragments, trimmed of leading/trailing whitespace; and each metadata field
holds the last value exposed among the frames up to and including the first
frame carrying a nonempty id (when every frame carries the id — the
well-formed OpenAI shape — this is the first frame's value). -/
theorem claim_C1 (chunks : String) (fs : List Frame)
    (hfs : streamFrames chunks = fs)
    (hmk : (gSplit chunks '\n').any (fun l => gStarts l "data: ") = true) :
    (processChunksState chunks).isOpenAISpec = true ∧
    gTrimSpace (processChunksState chunks).assembledContent =
      gTrimSpace (specConcatContent fs) ∧
    (processChunksState chunks).metadata = specMetadata fs := by
  unfold processChunksState
  refine ⟨?_, ?_, ?_⟩
  · rw [runLines_isOpenAI, hmk]
    rfl
  · rw [runLines_content]
    unfold streamFrames at hfs
    rw [hfs]
    rw [show ChunkState.init.assembledContent = "" from rfl,
      String.empty_append]
  · rw [runLines_metadata]
    unfold streamFrames at hfs
    rw [hfs]
    exact metaFoldCode_init fs

/-- C1 witness: the amended claim evaluated on `streamWellFormed`. -/
theorem claim_C1_witness :
    gTrimSpace (processChunksState streamWellFormed).assembledContent =
      gTrimSpace (specConcatContent (streamFrames streamWellFormed)) ∧
    (processChunksState streamWellFormed).metadata =
      specMetadata (streamFrames streamWellFormed) :=
  ⟨(claim_C1 streamWellFormed (streamFrames streamWellFormed) rfl
      (by decide)).2.1,
   (claim_C1 streamWellFormed (streamFrames streamWellFormed) rfl
      (by decide)).2.2⟩

/-! ## Claim C6 -/

/-- C6, counterexample: `decompressBody` does not fail on unrecognized labels
— the `default` branch passes the bytes through with no error, without even
consulting the libraries (here every library call would fail), and the label
`"identity"` is itself handled by that same passthrough branch. -/
theorem claim_C6_counterexample :
    decompressBody libFail "bogus" "payload" = .ok "payload" ∧
    decompressBody libFail "identity" "payload" = .ok "payload" :=
  ⟨rfl, rfl⟩

/-- C6, amended: `decompressBody` recognizes exactly five compression schemes
— gzip, deflate, br, zstd, snappy — on the lowercased label, delegating those
to the corresponding library; every other label (identity included) returns
the bytes unchanged with no error.  No label ever produces an
UnsupportedEncoding failure. -/
theorem claim_C6 (lib : Lib) (enc body : String) :
    (encodingScheme enc = none → decompressBody lib enc body = .ok body) ∧
    (∀ s, encodingScheme enc = some s →
      decompressBody lib enc body = lib s body) ∧
    ((∃ s, encodingScheme enc = some s) ↔
      gToLower enc ∈ (["gzip", "deflate", "br", "zstd", "snappy"] : List String)) := by
  refine ⟨?_, ?_, ?_⟩
  · intro h
    unfold decompressBody
    rw [h]
  · intro s h
    unfold decompressBody
    rw [h]
  · unfold encodingScheme
    dsimp only
    split_ifs with h1 h2 h3 h4 h5 <;> simp_all

/-- C6 witness: the dispatch evaluated at a recognized (uppercased) label and
at the passthrough. -/
theorem claim_C6_witness :
    decompressBody libId "GZIP" "x" = libId Scheme.gzip "x" ∧
    decompressBody libId "Snappy" "y" = libId Scheme.snappy "y" :=
  ⟨(claim_C6 libId "GZIP" "x").2.1 Scheme.gzip (by decide),
   (claim_C6 libId "Snappy" "y").2.1 Scheme.snappy (by decide)⟩

/-! ## Claim C8 -/

/-- C8: publishing is a total function treating each subscriber independently
— the published outcome at position `i` depends only on that subscriber; an
open subscriber with queue room receives the event appended to its queue; an
open subscriber with a saturated queue is left entirely unchanged (the event
is dropped for it alone).  In particular no subscriber's saturation affects
any other subscriber, and the publisher never waits on a queue. -/
theorem claim_C8 (clients : List SSEClient) (u : ServerUpdate) (i : Nat)
    (c : SSEClient) (hc : clients[i]? = some c) :
    (sendSSEUpdate clients u)[i]? = some (sendOne u c) ∧
    (c.doneClosed = false → c.events.length < c.capacity →
      sendOne u c = { c with events := c.events ++ [u] }) ∧
    (c.doneClosed = false → ¬ c.events.length < c.capacity →
      sendOne u c = c) := by
  refine ⟨?_, ?_, ?_⟩
  · simp [sendSSEUpdate, List.getElem?_map, hc]
  · intro h1 h2
    simp [sendOne, h1, h2]
  · intro h1 h2
    simp [sendOne, h1, h2]

/-- C8 witness: with a saturated subscriber and a free one, the saturated one
keeps its queue unchanged and the free one receives the event. -/
theorem claim_C8_witness :
    (sendSSEUpdate [clientFull, clientFree] updSample)[0]? = some clientFull ∧
    (sendSSEUpdate [clientFull, clientFree] updSample)[1]? =
      some { clientFree with events := [updSample] } := by
  have h0 := claim_C8 [clientFull, clientFree] updSample 0 clientFull (by decide)
  have h1 := claim_C8 [clientFull, clientFree] updSample 1 clientFree (by decide)
  constructor
  · rw [h0.1, h0.2.2 (by decide) (by decide)]
  · rw [h1.1, h1.2.1 (by decide) (by decide)]
    rfl

/-! ## Claim C10 -/

/-- C10: the terminal update touches only the four response columns.  Every
row keeps its position; the matched row keeps its id, timestamp, backend id,
method, model, target URL, request headers/body and user agent while its
response status/headers/body and duration become the entry's; unmatched rows
are untouched. -/
theorem claim_C10 (db : List LogRow) (entry : LogEntry) (i : Nat)
    (row : LogRow) (h : db[i]? = some row) :
    ∃ row', (updateLogRequest db entry)[i]? = some row' ∧
      row'.id = row.id ∧ row'.timestamp = row.timestamp ∧
      row'.provider = row.provider ∧ row'.method = row.method ∧
      row'.model = row.model ∧ row'.target_url = row.target_url ∧
      row'.request_headers = row.request_headers ∧
      row'.request_body = row.request_body ∧
      row'.useragent = row.useragent ∧
      (row.id = entry.Id →
        row'.response_status = entry.ResponseStatus ∧
        row'.response_headers = entry.ResponseHeaders ∧
        row'.response_body = entry.ResponseBody ∧
        row'.duration_ms = entry.DurationMs) ∧
      (row.id ≠ entry.Id → row' = row) := by
  by_cases hid : row.id = entry.Id
  · refine ⟨{ row with
        response_status := entry.ResponseStatus
        response_headers := entry.ResponseHeaders
        response_body := entry.ResponseBody
        duration_ms := entry.DurationMs }, ?_, rfl, rfl, rfl, rfl, rfl, rfl,
      rfl, rfl, rfl, fun _ => ⟨rfl, rfl, rfl, rfl⟩, fun hn => absurd hid hn⟩
    simp [updateLogRequest, List.getElem?_map, h, hid]
  · refine ⟨row, ?_, rfl, rfl, rfl, rfl, rfl, rfl, rfl, rfl, rfl,
      fun hy => absurd hy hid, fun _ => rfl⟩
    simp [updateLogRequest, List.getElem?_map, h, hid]

/-- C10 witness: the update evaluated on a two-row database, aimed at row 2. -/
theorem claim_C10_witness :
    ∃ row', (updateLogRequest dbSample updEntrySample)[1]? = some row' ∧
      row'.id = (rowSample 2).id ∧ row'.timestamp = (rowSample 2).timestamp ∧
      row'.provider = (rowSample 2).provider ∧
      row'.method = (rowSample 2).method ∧
      row'.model = (rowSample 2).model ∧
      row'.target_url = (rowSample 2).target_url ∧
      row'.request_headers = (rowSample 2).request_headers ∧
      row'.request_body = (rowSample 2).request_body ∧
      row'.useragent = (rowSample 2).useragent ∧
      ((rowSample 2).id = updEntrySample.Id →
        row'.response_status = updEntrySample.ResponseStatus ∧
        row'.response_headers = updEntrySample.ResponseHeaders ∧
        row'.response_body = updEntrySample.ResponseBody ∧
        row'.duration_ms = updEntrySample.DurationMs) ∧
      ((rowSample 2).id ≠ updEntrySample.Id → row' = rowSample 2) :=
  claim_C10 dbSample updEntrySample 1 (rowSample 2) (by decide)

/-! ## Claim C4 -/

/-- C4: the code, evaluated at the failing input — a unified-endpoint POST
whose body carries `model` `"llama3"` (no `:` delimiter) — crashes with an
index-out-of-range runtime panic at `parts[1]` instead of returning the
claimed 4xx JSON error envelope.  (No dispatch occurs, but no error envelope
is produced either: the connection dies with the panic.) -/
theorem claim_C4_eval :
    handleProxy libId (happyWorld respPlain) cfgSample "POST"
        "/v1/chat/completions" "" [] bodyNoColon =
      { events := [],
        result := .crash "runtime error: index out of range [1] with length 1" } := by
  decide

/-! ## Claim C7 -/

/-- Over-limit reads produce the dedicated error. -/
theorem maxBytesRead_gt (body : String)
    (h : body.data.length > httpMaxRequestBodySize) :
    (maxBytesRead httpMaxRequestBodySize body).2 =
      some "http: request body too large" := by
  unfold maxBytesRead
  rw [if_pos h]

/-- C7, counterexample: a CORS preflight (`OPTIONS`) request carrying an
over-limit body is answered with an immediate no-content success — not with
PayloadTooLarge — because that route never reads the body.  (No outbound call
happens there, but the claimed 413 rejection does not either.) -/
theorem claim_C7_counterexample :
    bigBody.data.length > httpMaxRequestBodySize ∧
    handleProxy libId (happyWorld respPlain) cfgSample "OPTIONS"
        "/ollama/chat/completions" "" [] bigBody =
      { events := [], result := .noContent } := by
  constructor
  · show (List.replicate (httpMaxRequestBodySize + 1) 'a').length >
      httpMaxRequestBodySize
    simp
  · rfl

/-- C7, amended: every request that reaches the body read — that is, any
request other than a CORS preflight, the index page, and the model-list route
— whose body exceeds the 10 MiB ceiling is rejected with the 413 JSON error
envelope, with no audit insert and no outbound dispatch. -/
theorem claim_C7 (lib : Lib) (w : World) (ps : Providers)
    (method path rawQuery : String) (header : Headers) (body : String)
    (hopt : method ≠ "OPTIONS") (hidx : path ≠ "/")
    (hroute : ¬((parseProvider path).1 = "v1" ∧ method = "GET" ∧
      (parseProvider path).2 = "models"))
    (hbig : body.data.length > httpMaxRequestBodySize) :
    handleProxy lib w ps method path rawQuery header body =
      { events := [],
        result := .httpError 413 "\x7b\"error\":\"Request body too large\"\x7d" } := by
  unfold handleProxy
  dsimp only
  rw [if_neg hopt, if_neg hidx, if_neg hroute, maxBytesRead_gt body hbig]
  simp

/-- C7 witness: the amended claim evaluated at a proxied POST with an
over-limit body. -/
theorem claim_C7_witness :
    handleProxy libId (happyWorld respPlain) cfgSample "POST"
        "/ollama/chat/completions" "" [] bigBody =
      { events := [],
        result := .httpError 413 "\x7b\"error\":\"Request body too large\"\x7d" } :=
  claim_C7 libId (happyWorld respPlain) cfgSample "POST"
    "/ollama/chat/completions" "" [] bigBody (by decide) (by decide)
    (by decide)
    (by
      show (List.replicate (httpMaxRequestBodySize + 1) 'a').length >
        httpMaxRequestBodySize
      simp)

/-! ## Claim C2 -/

/-- C2, counterexample: a proxied call whose upstream dispatch fails.  The
pending record was inserted and the dispatch attempted (the call resolved,
with a failure), yet zero terminal updates are attempted — the handler
returns the 502-style envelope without touching the record, contradicting
"exactly one terminal update ... including when the upstream call itself
fails". -/
theorem claim_C2_counterexample :
    (handleProxy libId upstreamFailWorld cfgSample "POST"
        "/v1/chat/completions" "" [] bodyOllama).events.countP Ev.isUpdate = 0 ∧
    (handleProxy libId upstreamFailWorld cfgSample "POST"
        "/v1/chat/completions" "" [] bodyOllama).events.countP Ev.isInsert = 1 ∧
    (handleProxy libId upstreamFailWorld cfgSample "POST"
        "/v1/chat/completions" "" [] bodyOllama).events.countP Ev.isDispatch = 1 ∧
    ∃ s, (handleProxy libId upstreamFailWorld cfgSample "POST"
        "/v1/chat/completions" "" [] bodyOllama).result = .httpError 500 s := by
  refine ⟨by decide, by decide, by decide, ⟨_, rfl⟩⟩

/-- C2, amended: on every run, at most one insert, one dispatch and one
update are attempted; whenever anything was attempted at all, the first
action is the insert of the pending record (response fields still at their
sentinel zero values) — so the insert strictly precedes any dispatch — and
exactly one terminal update is attempted precisely when the handler runs to
normal completion.  When the upstream call itself fails (or the request
cannot be built, or a non-streaming body read/decode fails), the handler
returns an error envelope with no terminal update. -/
theorem claim_C2 (lib : Lib) (w : World) (ps : Providers)
    (method path rawQuery : String) (header : Headers) (body : String) :
    ((handleProxy lib w ps method path rawQuery header body).events.countP
        Ev.isUpdate = 1 ↔
      (handleProxy lib w ps method path rawQuery header body).result =
        HRes.ok) ∧
    ((handleProxy lib w ps method path rawQuery header body).events ≠ [] →
      ∃ en, (handleProxy lib w ps method path rawQuery header
          body).events.head? = some (.insert en) ∧
        en.ResponseStatus = 0 ∧ en.ResponseBody = "" ∧ en.DurationMs = 0) ∧
    (handleProxy lib w ps method path rawQuery header body).events.countP
        Ev.isUpdate ≤ 1 ∧
    (handleProxy lib w ps method path rawQuery header body).events.countP
        Ev.isInsert ≤ 1 ∧
    (handleProxy lib w ps method path rawQuery header body).events.countP
        Ev.isDispatch ≤ 1 := by
  unfold handleProxy
  dsimp only
  repeat' split <;>
    try simp [finishUpdate, List.countP_cons, List.countP_nil, Ev.isUpdate,
      Ev.isInsert, Ev.isDispatch]

/-- C2 witness: on a successful run the one terminal update is attempted. -/
theorem claim_C2_witness :
    (handleProxy libId (happyWorld respPlain) cfgSample "POST"
        "/v1/chat/completions" "" [] bodyOllama).events.countP Ev.isUpdate = 1 :=
  (claim_C2 libId (happyWorld respPlain) cfgSample "POST"
      "/v1/chat/completions" "" [] bodyOllama).1.mpr (by decide)

/-! ## Claim C9 -/

theorem insertModel_perm (m : Frame) (l : List Frame) :
    (insertModel m l).Perm (m :: l) := by
  induction l with
  | nil => simp [insertModel]
  | cons x xs ih =>
    unfold insertModel
    by_cases h : modelKey m ≤ modelKey x
    · rw [if_pos h]
    · rw [if_neg h]
      exact (ih.cons x).trans (List.Perm.swap m x xs)

theorem mem_insertModel (y m : Frame) (l : List Frame) :
    y ∈ insertModel m l ↔ y = m ∨ y ∈ l := by
  rw [(insertModel_perm m l).mem_iff]
  simp

theorem insertModel_sorted (m : Frame) (l : List Frame)
    (h : l.Pairwise (fun a b => modelKey a ≤ modelKey b)) :
    (insertModel m l).Pairwise (fun a b => modelKey a ≤ modelKey b) := by
  induction l with
  | nil => simp [insertModel]
  | cons x xs ih =>
    rw [List.pairwise_cons] at h
    obtain ⟨hx, hxs⟩ := h
    unfold insertModel
    by_cases hle : modelKey m ≤ modelKey x
    · rw [if_pos hle]
      refine List.Pairwise.cons ?_ (List.Pairwise.cons hx hxs)
      intro y hy
      rcases List.mem_cons.mp hy with rfl | hmem
      · exact hle
      · exact le_trans hle (hx y hmem)
    · rw [if_neg hle]
      refine List.Pairwise.cons ?_ (ih hxs)
      intro y hy
      rcases (mem_insertModel y m xs).mp hy with rfl | hmem
      · exact le_of_not_le hle
      · exact hx y hmem

theorem sortModels_perm (l : List Frame) : (sortModels l).Perm l := by
  induction l with
  | nil => simp [sortModels]
  | cons x xs ih =>
    unfold sortModels at ih ⊢
    simp only [List.foldr_cons]
    exact (insertModel_perm x _).trans (ih.cons x)

theorem sortModels_sorted (l : List Frame) :
    (sortModels l).Pairwise (fun a b => modelKey a ≤ modelKey b) := by
  induction l with
  | nil => simp [sortModels]
  | cons x xs ih =>
    unfold sortModels at ih ⊢
    simp only [List.foldr_cons]
    exact insertModel_sorted x _ ih

/-- C9: the model snapshot.  A cold call merges the namespaced per-backend
lists, sorts ascending by the namespaced id (lexically), serializes once and
stores exactly the served bytes; once the cache holds bytes, every subsequent
call — whatever the backends would answer then — returns those identical
bytes and leaves the cache unchanged, for the remainder of the process
lifetime (no expiry, no invalidation). -/
theorem claim_C9 (w : ModelsWorld) (ps : Providers)
    (hids : ∀ m ∈ combinedModelData w ps, (getStr m "id").isSome = true) :
    (getAllModels w ps none).2 = some (getAllModels w ps none).1 ∧
    (getAllModels w ps none).1 =
      modelsJSONBytes (sortModels (combinedModelData w ps)) ∧
    (sortModels (combinedModelData w ps)).Pairwise
      (fun a b => modelKey a ≤ modelKey b) ∧
    (sortModels (combinedModelData w ps)).Perm (combinedModelData w ps) ∧
    (∀ m ∈ sortModels (combinedModelData w ps),
      getStr m "id" = some (modelKey m)) ∧
    (∀ (w2 : ModelsWorld) (b : String),
      getAllModels w2 ps (some b) = (b, some b)) := by
  refine ⟨rfl, rfl, sortModels_sorted _, sortModels_perm _, ?_, fun _ _ => rfl⟩
  intro m hm
  have hmem : m ∈ combinedModelData w ps := (sortModels_perm _).subset hm
  have := hids m hmem
  obtain ⟨s, hs⟩ := Option.isSome_iff_exists.mp this
  rw [hs]
  simp [modelKey, hs]

/-- C9 witness: the cache state machine evaluated on a two-backend world. -/
theorem claim_C9_witness :
    (getAllModels modelsWorldSample providersSample2 none).2 =
      some (getAllModels modelsWorldSample providersSample2 none).1 ∧
    (sortModels (combinedModelData modelsWorldSample
      providersSample2)).Pairwise (fun a b => modelKey a ≤ modelKey b) ∧
    (∀ (w2 : ModelsWorld) (b : String),
      getAllModels w2 providersSample2 (some b) = (b, some b)) :=
  ⟨(claim_C9 modelsWorldSample providersSample2 (by decide)).1,
   (claim_C9 modelsWorldSample providersSample2 (by decide)).2.2.1,
   (claim_C9 modelsWorldSample providersSample2 (by decide)).2.2.2.2.2⟩

/-! ## Claims C3 and C5: symbolic execution support -/

/-- Bodies within the ceiling read back unchanged. -/
theorem maxBytesRead_le (body : String)
    (h : body.data.length ≤ httpMaxRequestBodySize) :
    maxBytesRead httpMaxRequestBodySize body = (body, none) := by
  unfold maxBytesRead
  rw [if_neg (by omega)]

theorem takeWhile_ne_of_append (l : List Char) (c : Char) (r : List Char)
    (h : c ∉ l) :
    (l ++ c :: r).takeWhile (· ≠ c) = l := by
  induction l with
  | nil => simp
  | cons x xs ih =>
    have hx : x ≠ c := fun e => h (e ▸ List.mem_cons_self x xs)
    have hxs : c ∉ xs := fun m => h (List.mem_cons_of_mem x m)
    simp only [List.cons_append, List.takeWhile_cons]
    rw [if_pos (by simp [hx]), ih hxs]

theorem dropWhile_ne_of_append (l : List Char) (c : Char) (r : List Char)
    (h : c ∉ l) :
    (l ++ c :: r).dropWhile (· ≠ c) = c :: r := by
  induction l with
  | nil => simp
  | cons x xs ih =>
    have hx : x ≠ c := fun e => h (e ▸ List.mem_cons_self x xs)
    have hxs : c ∉ xs := fun m => h (List.mem_cons_of_mem x m)
    simp only [List.cons_append, List.dropWhile_cons]
    rw [if_pos (by simp [hx]), ih hxs]

theorem data_append_colon (b m : String) :
    (b ++ ":" ++ m).data = b.data ++ ':' :: m.data := by
  simp [String.data_append]

/-- Behavior of `strings.SplitN(model, ":", 2)` on a model of the form `b:m` with `b`
colon-free: exactly the pair, split at the first colon (`m` may itself
contain colons). -/
theorem gSplitN2_first (b m : String) (hb : (':' : Char) ∉ b.data) :
    gSplitN2 (b ++ ":" ++ m) ':' = [b, m] := by
  unfold gSplitN2
  rw [data_append_colon]
  have hc : (b.data ++ ':' :: m.data).contains ':' = true := by simp
  rw [if_pos hc]
  rw [takeWhile_ne_of_append _ _ _ hb, dropWhile_ne_of_append _ _ _ hb]
  rfl

theorem objGet_objSet_self (kvs : Frame) (k : String) (v : Json) :
    objGet (objSet kvs k v) k = some v := by
  induction kvs with
  | nil => simp [objSet, objGet]
  | cons kv rest ih =>
    obtain ⟨k1, v1⟩ := kv
    by_cases h : k1 = k
    · simp [objSet, objGet, h]
    · simp [objSet, objGet, h, ih]

theorem objGet_objDel_ne (kvs : Frame) (kdel k : String) (h : k ≠ kdel) :
    objGet (objDel kvs kdel) k = objGet kvs k := by
  induction kvs with
  | nil => simp [objDel, objGet]
  | cons kv rest ih =>
    obtain ⟨k1, v1⟩ := kv
    by_cases h1 : k1 = kdel
    · subst h1
      have hk : k1 ≠ k := fun e => h e.symm
      simp [objDel, List.filter_cons, objGet, hk] at ih ⊢
      exact ih
    · simp [objDel, List.filter_cons, h1, objGet] at ih ⊢
      by_cases h2 : k1 = k <;> simp [h2, ih]

theorem getStr_forwardedBody (pc : ProviderConfig) (kvs : Frame) (m : String) :
    getStr (forwardedBody pc kvs m) "model" = some m := by
  unfold forwardedBody
  split
  · unfold getStr
    rw [objGet_objDel_ne _ _ _ (by decide), objGet_objSet_self]
  · unfold getStr
    rw [objGet_objSet_self]

theorem getStr_directBody (pc : ProviderConfig) (kvs : Frame) (mdl : String)
    (h : getStr kvs "model" = some mdl) :
    getStr (directBody pc kvs) "model" = some mdl := by
  unfold directBody
  split
  · unfold getStr at h ⊢
    rw [objGet_objDel_ne _ _ _ (by decide)]
    exact h
  · exact h

theorem getStr_fwdAux_gemini (m : String) (kvs : Frame) :
    getStr (objDel (objSet kvs "model" (Json.str m)) "frequency_penalty")
      "model" = some m := by
  unfold getStr
  rw [objGet_objDel_ne _ _ _ (by decide), objGet_objSet_self]

theorem getStr_fwdAux_plain (m : String) (kvs : Frame) :
    getStr (objSet kvs "model" (Json.str m)) "model" = some m := by
  unfold getStr
  rw [objGet_objSet_self]

/-! ## Claim C3 -/

/-- C3: for a unified-endpoint request whose body's `model` is
`backend ++ ":" ++ model` (the backend id colon-free, the model possibly
containing further colons), the handler resolves exactly that backend id and
bare model — splitting on the first `:` — audits them, and dispatches to that
backend's URL with the body's `model` field rewritten to the bare model. -/
theorem claim_C3 (lib : Lib) (w : World) (ps : Providers)
    (method path rawQuery : String) (header : Headers) (body : String)
    (b m : String) (kvs : Frame) (pc : ProviderConfig)
    (hopt : method ≠ "OPTIONS") (hidx : path ≠ "/")
    (hv1 : (parseProvider path).1 = "v1")
    (hnm : ¬(method = "GET" ∧ (parseProvider path).2 = "models"))
    (hsize : body.data.length ≤ httpMaxRequestBodySize)
    (hun : unmarshalMap body = .ok (some kvs))
    (hmodel : getStr kvs "model" = some (b ++ ":" ++ m))
    (hb : (':' : Char) ∉ b.data)
    (hpc : lookupProvider ps b = some pc)
    (hreq : w.mkReqErr = none) :
    ∃ en rest,
      (handleProxy lib w ps method path rawQuery header body).events =
        Ev.insert en :: Ev.dispatch b
          (pc.BaseURL ++ "/" ++ (parseProvider path).2 ++
            (if rawQuery ≠ "" then "?" ++ rawQuery else ""))
          (marshal (.obj (forwardedBody pc kvs m))) :: rest ∧
      en.Provider = b ∧ en.Model = m ∧
      getStr (forwardedBody pc kvs m) "model" = some m := by
  unfold handleProxy
  dsimp only
  rw [if_neg hopt, if_neg hidx,
    if_neg (fun hand => hnm ⟨hand.2.1, hand.2.2⟩),
    maxBytesRead_le body hsize]
  dsimp only
  rw [hun]
  dsimp only
  rw [if_pos hv1]
  unfold v1ModelRewrite
  simp only [hmodel, gSplitN2_first b m hb, hpc, hreq]
  by_cases hgem : pc.IsGemini = true
  · simp only [hgem, if_true, Option.map_some', getStr_fwdAux_gemini m kvs]
    have hfb : objDel (objSet kvs "model" (Json.str m)) "frequency_penalty" =
        forwardedBody pc kvs m := by
      simp [forwardedBody, hgem]
    rw [hfb]
    cases hdo : w.doResult with
    | error e => exact ⟨_, [], rfl, rfl, rfl, getStr_forwardedBody pc kvs m⟩
    | ok resp =>
      dsimp only
      by_cases hstr : hGet resp.Header "Content-Type" = "text/event-stream"
      · rw [if_pos hstr]
        exact ⟨_, _, rfl, rfl, rfl, getStr_forwardedBody pc kvs m⟩
      · rw [if_neg hstr]
        cases hre : resp.readErr with
        | some e2 =>
          exact ⟨_, [], rfl, rfl, rfl, getStr_forwardedBody pc kvs m⟩
        | none =>
          by_cases henc : hGet resp.Header "Content-Encoding" = ""
          · rw [if_pos henc]
            exact ⟨_, _, rfl, rfl, rfl, getStr_forwardedBody pc kvs m⟩
          · rw [if_neg henc]
            cases hdec : decompressBody lib (hGet resp.Header "Content-Encoding")
                (String.join resp.chunks) with
            | error e3 =>
              exact ⟨_, [], rfl, rfl, rfl, getStr_forwardedBody pc kvs m⟩
            | ok dec =>
              exact ⟨_, _, rfl, rfl, rfl, getStr_forwardedBody pc kvs m⟩
  · have hg2 : pc.IsGemini = false := by
      revert hgem
      cases pc.IsGemini <;> simp
    simp only [hg2, Bool.false_eq_true, if_false, getStr_fwdAux_plain m kvs]
    have hfb : objSet kvs "model" (Json.str m) = forwardedBody pc kvs m := by
      simp [forwardedBody, hg2]
    rw [hfb]
    cases hdo : w.doResult with
    | error e => exact ⟨_, [], rfl, rfl, rfl, getStr_forwardedBody pc kvs m⟩
    | ok resp =>
      dsimp only
      by_cases hstr : hGet resp.Header "Content-Type" = "text/event-stream"
      · rw [if_pos hstr]
        exact ⟨_, _, rfl, rfl, rfl, getStr_forwardedBody pc kvs m⟩
      · rw [if_neg hstr]
        cases hre : resp.readErr with
        | some e2 =>
          exact ⟨_, [], rfl, rfl, rfl, getStr_forwardedBody pc kvs m⟩
        | none =>
          by_cases henc : hGet resp.Header "Content-Encoding" = ""
          · rw [if_pos henc]
            exact ⟨_, _, rfl, rfl, rfl, getStr_forwardedBody pc kvs m⟩
          · rw [if_neg henc]
            cases hdec : decompressBody lib (hGet resp.Header "Content-Encoding")
                (String.join resp.chunks) with
            | error e3 =>
              exact ⟨_, [], rfl, rfl, rfl, getStr_forwardedBody pc kvs m⟩
            | ok dec =>
              exact ⟨_, _, rfl, rfl, rfl, getStr_forwardedBody pc kvs m⟩

/-- C3 witness: the unified endpoint evaluated at
`model = "ollama:llama3"`. -/
theorem claim_C3_witness :
    ∃ en rest,
      (handleProxy libId (happyWorld respPlain) cfgSample "POST"
          "/v1/chat/completions" "" [] bodyOllama).events =
        Ev.insert en :: Ev.dispatch "ollama"
          (pcSample.BaseURL ++ "/" ++ (parseProvider "/v1/chat/completions").2 ++
            (if ("" : String) ≠ "" then "?" ++ "" else ""))
          (marshal (.obj (forwardedBody pcSample
            [("model", Json.str "ollama:llama3")] "llama3"))) :: rest ∧
      en.Provider = "ollama" ∧ en.Model = "llama3" ∧
      getStr (forwardedBody pcSample [("model", Json.str "ollama:llama3")]
        "llama3") "model" = some "llama3" :=
  claim_C3 libId (happyWorld respPlain) cfgSample "POST" "/v1/chat/completions"
    "" [] bodyOllama "ollama" "llama3" [("model", Json.str "ollama:llama3")]
    pcSample (by decide) (by decide) (by decide) (by decide) (by decide)
    rfl (by decide) (by decide) (by decide) (by decide)

/-! ## Claim C5 -/

/-- C5, counterexample: a stream whose sole frame carries the marker but not
a JSON payload.  The claim places it among streams "whose frames never match
the expected marker-prefixed JSON shape", yet the audit body is the assembled
reconstruction (empty metadata and content), not the verbatim bytes. -/
theorem claim_C5_counterexample :
    processChunks "data: notjson\n" 1 ≠ "data: notjson\n" := by
  decide

/-- The reconstruction is the identity on streams with no marker-prefixed
line. -/
theorem processChunks_noMarker (chunks : String) (n : Int)
    (h : (gSplit chunks '\n').all (fun l => !(gStarts l "data: ")) = true) :
    processChunks chunks n = chunks := by
  unfold processChunks processChunksState
  have hany : (gSplit chunks '\n').any (fun l => gStarts l "data: ") = false := by
    rw [List.all_eq_true] at h
    rw [List.any_eq_false]
    intro l hl
    have := h l hl
    simpa using this
  have hiso : (runLines (gSplit chunks '\n') ChunkState.init).isOpenAISpec = false := by
    rw [runLines_isOpenAI, hany]
    rfl
  simp [hiso]

/-- C5, amended: for a streaming upstream response none of whose
(decompressed) lines carries the `"data: "` marker, the attempted terminal
update stores exactly the verbatim concatenation of the received bytes, after
decompression when an encoding applies (kept raw if decompression fails).  A
marker-prefixed line with a non-JSON payload, by contrast, selects
reconstruction (see the counterexample), the fallback criterion being marker
presence alone. -/
theorem claim_C5 (lib : Lib) (w : World) (ps : Providers)
    (method path rawQuery : String) (header : Headers) (body : String)
    (kvs : Frame) (mdl : String) (pc : ProviderConfig) (resp : UpstreamResp)
    (hopt : method ≠ "OPTIONS") (hidx : path ≠ "/")
    (hv1 : (parseProvider path).1 ≠ "v1")
    (hsize : body.data.length ≤ httpMaxRequestBodySize)
    (hun : unmarshalMap body = .ok (some kvs))
    (hmodel : getStr kvs "model" = some mdl)
    (hpc : lookupProvider ps (parseProvider path).1 = some pc)
    (hreq : w.mkReqErr = none)
    (hdo : w.doResult = .ok resp)
    (hstream : hGet resp.Header "Content-Type" = "text/event-stream")
    (hnomark : (gSplit (streamAuditData lib (hGet resp.Header "Content-Encoding")
        (consumeStream resp.chunks w.writeFailAt).2) '\n').all
        (fun l => !(gStarts l "data: ")) = true) :
    ∃ en pre,
      (handleProxy lib w ps method path rawQuery header body).events =
        pre ++ [Ev.update en] ∧
      en.ResponseBody =
        streamAuditData lib (hGet resp.Header "Content-Encoding")
          (consumeStream resp.chunks w.writeFailAt).2 := by
  unfold handleProxy
  dsimp only
  rw [if_neg hopt, if_neg hidx, if_neg (fun hand => hv1 hand.1),
    maxBytesRead_le body hsize]
  dsimp only
  rw [hun]
  dsimp only
  rw [if_neg hv1]
  dsimp only
  rw [hpc]
  dsimp only
  have hbody2 : (if pc.IsGemini = true then
      Option.map (fun x => objDel x "frequency_penalty") (some kvs)
    else some kvs) = some (directBody pc kvs) := by
    unfold directBody
    by_cases hg : pc.IsGemini = true <;> simp [hg]
  rw [hbody2]
  dsimp only
  rw [getStr_directBody pc kvs mdl hmodel]
  dsimp only
  rw [hreq]
  dsimp only
  rw [hdo]
  dsimp only
  rw [if_pos hstream]
  rw [processChunks_noMarker _ _ hnomark]
  exact ⟨_, _, rfl, rfl⟩

/-- C5 witness: a direct-provider streaming call whose frames are unmarked
raw text; the stored audit body is their verbatim concatenation. -/
theorem claim_C5_witness :
    ∃ en pre,
      (handleProxy libId (happyWorld respStreamRaw) cfgSample "POST"
          "/ollama/chat/completions" "" [] bodyNoColon).events =
        pre ++ [Ev.update en] ∧
      en.ResponseBody =
        streamAuditData libId (hGet respStreamRaw.Header "Content-Encoding")
          (consumeStream respStreamRaw.chunks
            (happyWorld respStreamRaw).writeFailAt).2 :=
  claim_C5 libId (happyWorld respStreamRaw) cfgSample "POST"
    "/ollama/chat/completions" "" [] bodyNoColon
    [("model", Json.str "llama3")] "llama3" pcSample respStreamRaw
    (by decide) (by decide) (by decide) (by decide) rfl (by decide)
    (by decide) (by decide) rfl (by decide) (by decide)

end LLMSee
